import Mathlib

/-!
Shallow embedding of the UnityHubCli process-lifecycle coordinator
(`src/application/usecases.ts`, `src/infrastructure/unityLock.ts`,
`src/infrastructure/unityProcess.ts`, `src/infrastructure/unityProcess.win.ts`,
`src/infrastructure/editor.ts` / the Windows editor resolver, and
`src/infrastructure/unityhub.win.ts`).

External effects (filesystem access, process table queries, `osascript`,
PowerShell invocations, `JSON.parse`, `node:path` resolution) are modelled as
oracle inputs carried in environment structures; each embedded operation also
returns the list of side-effecting calls it performed, so that claims about
"X is invoked / not invoked" are expressible.
-/

namespace UnityHubCli

/-- `'graceful' | 'sigterm' | 'sigkill'` from the terminator result type. -/
inductive Stage
  | graceful
  | sigterm
  | sigkill
deriving DecidableEq

/-- `{ terminated: boolean, stage?: ... }` returned by the terminators. -/
structure TermOutcome where
  terminated : Bool
  stage : Option Stage
deriving DecidableEq

/-- `UnityProcess` from `src/domain/models.ts`. -/
structure UnityProcess where
  pid : Int
  projectPath : String
deriving DecidableEq

/-- `EditorVersion` from `src/domain/models.ts`. -/
structure EditorVersion where
  value : String
deriving DecidableEq

/-- `GitBranch` from `src/domain/models.ts`. -/
inductive GitBranch
  | branch (name : String)
  | detached (sha : String)
deriving DecidableEq

/-- `GitRepositoryInfo` from `src/domain/models.ts`. -/
structure GitRepositoryInfo where
  root : String
  branch : Option GitBranch
deriving DecidableEq

/-- `UnityProject` from `src/domain/models.ts` (`lastModified` as epoch millis). -/
structure UnityProject where
  id : String
  title : String
  path : String
  version : EditorVersion
  lastModified : Option Int
  favorite : Bool
deriving DecidableEq

/-- `'idle' | 'running' | 'crashed'` from `src/application/usecases.ts`. -/
inductive LaunchStatus
  | idle
  | running
  | crashed
deriving DecidableEq

/-- `'allow' | 'skip'` returned by `IUnityProcessLockChecker.check`. -/
inductive Decision
  | allow
  | skip
deriving DecidableEq

/-- `ListProjectsUseCase.determineLaunchStatus` (usecases.ts lines 63-71). -/
def determineLaunchStatus (hasRunningProcess isLocked : Bool) : LaunchStatus :=
  if hasRunningProcess then .running
  else if isLocked then .crashed
  else .idle

/-- The per-project settled results feeding one row of `ListProjectsUseCase.execute`
(`Promise.allSettled` outcome: `.ok` = fulfilled, `.error` = rejected). -/
structure SettledResults where
  repoResult : Except Unit (Option GitRepositoryInfo)
  lockResult : Except Unit Bool
  processResult : Except Unit (Option UnityProcess)

/-- `ProjectView` from `src/application/usecases.ts`. -/
structure ProjectView where
  project : UnityProject
  repository : Option GitRepositoryInfo
  isLocked : Bool
  launchStatus : LaunchStatus

/-- `isLocked` computed in `ListProjectsUseCase.execute` (line 54):
`lockResult.status === 'fulfilled' ? Boolean(lockResult.value) : false`. -/
def settledIsLocked (r : SettledResults) : Bool :=
  match r.lockResult with
  | .ok b => b
  | .error _ => false

/-- `hasRunningProcess` computed in `ListProjectsUseCase.execute` (lines 55-56):
`processResult.status === 'fulfilled' ? Boolean(processResult.value) : false`
(an object is truthy, `undefined` is falsy). -/
def settledHasRunningProcess (r : SettledResults) : Bool :=
  match r.processResult with
  | .ok (some _) => true
  | .ok none => false
  | .error _ => false

/-- One row of `ListProjectsUseCase.execute`'s result (usecases.ts lines 47-60). -/
def projectViewOf (project : UnityProject) (r : SettledResults) : ProjectView :=
  { project := project
    repository :=
      match r.repoResult with
      | .ok v => v
      | .error _ => none
    isLocked := settledIsLocked r
    launchStatus := determineLaunchStatus (settledHasRunningProcess r) (settledIsLocked r) }

/-! ## `UnityLockChecker.check` (src/infrastructure/unityLock.ts lines 35-71) -/

/-- Side-effecting calls performed by `UnityLockChecker.check`. -/
inductive CheckEvent
  | findProcess
  | bringToFront
  | cleanTemp
  | removeLock
deriving DecidableEq

/-- Oracle inputs for `UnityLockChecker.check`. `findResult` is the outcome of
`unityProcessReader.findByProjectPath` (which may throw). `cleanOk`, `rmOk` and
`bringOk` record whether the best-effort side steps succeed; the source swallows
their failures (try/catch with `console.error`), so they must not influence the
returned decision. -/
structure CheckEnv where
  findResult : Except String (Option UnityProcess)
  hasLockfile : Bool
  isDarwin : Bool
  bringOk : Bool
  cleanOk : Bool
  rmOk : Bool

/-- `UnityLockChecker.check`: returns the admission decision and the list of
side-effecting calls made, in order. `bringUnityToFront` runs `osascript` only
on darwin (unityLock.ts lines 73-85); its failure, the `tempDirectoryCleaner.clean`
failure and the `rm` failure are all caught and logged. -/
def lockCheck (env : CheckEnv) : Except String (Decision × List CheckEvent) :=
  match env.findResult with
  | .error e => .error e
  | .ok (some _) =>
      .ok (.skip, [CheckEvent.findProcess] ++ (if env.isDarwin then [CheckEvent.bringToFront] else []))
  | .ok none =>
      if !env.hasLockfile then
        .ok (.allow, [CheckEvent.findProcess])
      else
        .ok (.allow, [CheckEvent.findProcess, CheckEvent.cleanTemp, CheckEvent.removeLock])

/-! ## `TerminateProjectUseCase.execute` (usecases.ts lines 114-147) -/

/-- Oracle inputs for `TerminateProjectUseCase.execute`: the reader's find result,
the terminator's outcome (both can throw), and whether the Temp cleanup fails
(the source catches and logs that failure). -/
structure TerminateUCEnv where
  findResult : Except String (Option UnityProcess)
  termResult : Except String TermOutcome
  cleanFails : Bool

/-- Result shape of `TerminateProjectUseCase.execute`. -/
structure TerminateUCResult where
  terminated : Bool
  message : Option String
deriving DecidableEq

/-- `TerminateProjectUseCase.execute`; the second component records whether
`unityTempDirectoryCleaner.clean` was invoked. Cleanup runs only for stage
`'sigterm'` or `'sigkill'` (usecases.ts line 134) and its failure is swallowed. -/
def terminateProject (env : TerminateUCEnv) : Except String (TerminateUCResult × Bool) :=
  match env.findResult with
  | .error e => .error e
  | .ok none =>
      .ok ({ terminated := false, message := some "No Unity process is running for this project." }, false)
  | .ok (some _) =>
      match env.termResult with
      | .error e => .error e
      | .ok termination =>
          if !termination.terminated then
            .ok ({ terminated := false, message := some "Failed to terminate the Unity process." }, false)
          else
            let doClean := termination.stage = some Stage.sigterm ∨ termination.stage = some Stage.sigkill
            .ok ({ terminated := true, message := none }, decide doClean)

/-! ## `LaunchProjectUseCase.execute` (usecases.ts lines 90-104) -/

/-- Side-effecting calls performed by `LaunchProjectUseCase.execute`, in order. -/
inductive LaunchEvent
  | checkAdmission
  | resolveEditor
  | readExtraArgs
  | spawn (command : String) (args : List String) (detached : Bool)
  | recordTimestamp
deriving DecidableEq

/-- Error taxonomy of `LaunchProjectUseCase.execute`. `cancelled` models
`LaunchCancelledError`; the other constructors model propagated failures of the
collaborating ports. -/
inductive LaunchError
  | cancelled
  | checkFailed (msg : String)
  | editorNotFound (msg : String)
  | spawnFailed (msg : String)
  | updateFailed (msg : String)
deriving DecidableEq

/-- Oracle inputs for `LaunchProjectUseCase.execute`. `readCliArgs` never throws
(it returns `[]` on failure), so it is a plain list. -/
structure LaunchEnv where
  lockDecision : Except String Decision
  resolveResult : Except String String
  extraArgs : List String
  spawnResult : Except String Unit
  updateResult : Except String Unit

/-- `LaunchProjectUseCase.execute`: check admission first, throw
`LaunchCancelledError` on `'skip'`, otherwise resolve the editor binary, read the
extra CLI args, spawn detached with `['-projectPath', path, ...extraArgs]`, then
record the last-used timestamp. Returns the result and the performed calls. -/
def launchExecute (env : LaunchEnv) (project : UnityProject) :
    Except LaunchError Unit × List LaunchEvent :=
  match env.lockDecision with
  | .error m => (.error (.checkFailed m), [LaunchEvent.checkAdmission])
  | .ok d =>
      if d = Decision.skip then
        (.error .cancelled, [LaunchEvent.checkAdmission])
      else
        match env.resolveResult with
        | .error m => (.error (.editorNotFound m), [LaunchEvent.checkAdmission, LaunchEvent.resolveEditor])
        | .ok editorPath =>
            let launchArgs := ["-projectPath", project.path] ++ env.extraArgs
            match env.spawnResult with
            | .error m =>
                (.error (.spawnFailed m),
                  [LaunchEvent.checkAdmission, LaunchEvent.resolveEditor, LaunchEvent.readExtraArgs,
                   LaunchEvent.spawn editorPath launchArgs true])
            | .ok _ =>
                match env.updateResult with
                | .error m =>
                    (.error (.updateFailed m),
                      [LaunchEvent.checkAdmission, LaunchEvent.resolveEditor, LaunchEvent.readExtraArgs,
                       LaunchEvent.spawn editorPath launchArgs true, LaunchEvent.recordTimestamp])
                | .ok _ =>
                    (.ok (),
                      [LaunchEvent.checkAdmission, LaunchEvent.resolveEditor, LaunchEvent.readExtraArgs,
                       LaunchEvent.spawn editorPath launchArgs true, LaunchEvent.recordTimestamp])

/-! ## `MacUnityProcessTerminator.terminate` (unityProcess.ts lines 326-392) -/

/-- Outcome of one `process.kill(pid, sig)` call: success, `ESRCH`
(process missing), or another error (whose message is re-thrown wrapped). -/
inductive KillResult
  | ok
  | esrch
  | err (msg : String)
deriving DecidableEq

/-- Signal-sending calls performed by the macOS terminator. -/
inductive MacTermEvent
  | osascriptQuit
  | killSigterm
  | killSigkill
deriving DecidableEq

/-- Oracle inputs for the macOS terminator. `osascriptOk` is whether the
Command+Q AppleScript call succeeds; `gracefulPollDead` / `sigtermPollDead`
record whether some liveness poll inside the corresponding wait window observes
the process gone; `aliveAfterKill` is the liveness probe after the post-SIGKILL
settle delay. -/
structure MacTermEnv where
  isDarwin : Bool
  osascriptOk : Bool
  gracefulPollDead : Bool
  sigtermRes : KillResult
  sigtermPollDead : Bool
  sigkillRes : KillResult
  aliveAfterKill : Bool

/-- `MacUnityProcessTerminator.terminate`: graceful Command+Q attempt on darwin
(errors swallowed, 3s poll window), then SIGTERM (5s poll window), then SIGKILL
with a 200ms settle delay. `ESRCH` at any kill is confirmed exit; at the SIGTERM
stage the recorded stage is `'graceful'` when the graceful attempt ran. Returns
the outcome and the signal-sending calls made, in order. -/
def macTerminate (env : MacTermEnv) (proc : UnityProcess) :
    Except String (TermOutcome × List MacTermEvent) :=
  let attemptedGraceful := env.isDarwin
  let gEvts := if env.isDarwin then [MacTermEvent.osascriptQuit] else []
  if env.isDarwin && env.osascriptOk && env.gracefulPollDead then
    .ok ({ terminated := true, stage := some .graceful }, gEvts)
  else
    match env.sigtermRes with
    | .err m =>
        .error ("Failed to terminate the Unity process (PID: " ++ toString proc.pid ++ "): " ++ m)
    | .esrch =>
        .ok ({ terminated := true,
               stage := some (if attemptedGraceful then Stage.graceful else Stage.sigterm) },
             gEvts ++ [MacTermEvent.killSigterm])
    | .ok =>
        if env.sigtermPollDead then
          .ok ({ terminated := true, stage := some .sigterm }, gEvts ++ [MacTermEvent.killSigterm])
        else
          match env.sigkillRes with
          | .err m =>
              .error ("Failed to forcefully terminate the Unity process (PID: "
                ++ toString proc.pid ++ "): " ++ m)
          | .esrch =>
              .ok ({ terminated := true, stage := some .sigkill },
                   gEvts ++ [MacTermEvent.killSigterm, MacTermEvent.killSigkill])
          | .ok =>
              if env.aliveAfterKill then
                .ok ({ terminated := false, stage := none },
                     gEvts ++ [MacTermEvent.killSigterm, MacTermEvent.killSigkill])
              else
                .ok ({ terminated := true, stage := some .sigkill },
                     gEvts ++ [MacTermEvent.killSigterm, MacTermEvent.killSigkill])

/-! ## `WinUnityProcessTerminator.terminate` (unityProcess.win.ts lines 157-216) -/

/-- PowerShell calls performed by the Windows terminator. -/
inductive WinTermEvent
  | stopProcess
  | stopProcessForce
deriving DecidableEq

/-- Oracle inputs for the Windows terminator. `stopOk` / `forceOk` are whether
the `Stop-Process` / `Stop-Process -Force` PowerShell invocations succeed;
`aliveAfterStopFail` / `aliveAfterForceFail` are the liveness probes taken in
the corresponding catch blocks; `stopPollDead` records whether some poll in the
5s wait window observes the process gone; `aliveAfterKill` is the probe after
the 200ms settle delay. On Windows `ensureProcessAlive` returns `false` on any
`process.kill` error, so the terminator never throws. -/
structure WinTermEnv where
  stopOk : Bool
  aliveAfterStopFail : Bool
  stopPollDead : Bool
  forceOk : Bool
  aliveAfterForceFail : Bool
  aliveAfterKill : Bool

/-- `WinUnityProcessTerminator.terminate`: `Stop-Process` (stage `'sigterm'`),
5s poll window, then `Stop-Process -Force` (stage `'sigkill'`) with a 200ms
settle delay. A failed `Stop-Process` against an already-gone pid is confirmed
exit. Returns the outcome and the PowerShell calls made, in order. -/
def winTerminate (env : WinTermEnv) : TermOutcome × List WinTermEvent :=
  if !env.stopOk && !env.aliveAfterStopFail then
    ({ terminated := true, stage := some .sigterm }, [WinTermEvent.stopProcess])
  else if env.stopPollDead then
    ({ terminated := true, stage := some .sigterm }, [WinTermEvent.stopProcess])
  else if !env.forceOk then
    if !env.aliveAfterForceFail then
      ({ terminated := true, stage := some .sigkill },
       [WinTermEvent.stopProcess, WinTermEvent.stopProcessForce])
    else
      ({ terminated := false, stage := none },
       [WinTermEvent.stopProcess, WinTermEvent.stopProcessForce])
  else if env.aliveAfterKill then
    ({ terminated := false, stage := none },
     [WinTermEvent.stopProcess, WinTermEvent.stopProcessForce])
  else
    ({ terminated := true, stage := some .sigkill },
     [WinTermEvent.stopProcess, WinTermEvent.stopProcessForce])

/-! ## String helpers shared by the platform readers

The source matches command lines with JavaScript regular expressions; the
embeddings below implement the exact scanning behaviour of those regexes over
`List Char`. -/

/-- The JavaScript regex `\s` character class (whitespace used by
`/\s/`, `String.prototype.trim` and `split`-side trimming). -/
def isJsSpace (c : Char) : Bool :=
  c = ' ' || c = '\t' || c = '\n' || c = '\r' || c = Char.ofNat 0x0b || c = Char.ofNat 0x0c ||
  c = Char.ofNat 0xa0 || c = Char.ofNat 0x1680 ||
  (Char.ofNat 0x2000 ≤ c && c ≤ Char.ofNat 0x200a) ||
  c = Char.ofNat 0x2028 || c = Char.ofNat 0x2029 || c = Char.ofNat 0x202f ||
  c = Char.ofNat 0x205f || c = Char.ofNat 0x3000 || c = Char.ofNat 0xfeff

/-- The double-quote character. -/
def dquote : Char := Char.ofNat 34

/-- The single-quote character. -/
def squote : Char := Char.ofNat 39

/-- `needle` occurs as a contiguous run inside `hay` (JS
`String.prototype.includes` / an unanchored regex literal test). -/
def isSubOf : List Char → List Char → Bool
  | needle, [] => needle.isEmpty
  | needle, c :: rest => needle.isPrefixOf (c :: rest) || isSubOf needle rest

/-- JS `String.prototype.split(sep)` for a single-character separator. -/
def splitOnChar (sep : Char) : List Char → List (List Char)
  | [] => [[]]
  | c :: rest =>
      let r := splitOnChar sep rest
      if c = sep then [] :: r
      else
        match r with
        | x :: xs => (c :: x) :: xs
        | [] => [[c]]

/-- JS `String.prototype.trim`. -/
def trimChars (l : List Char) : List Char :=
  ((l.dropWhile isJsSpace).reverse.dropWhile isJsSpace).reverse

/-- Lower-case folding used to model the `/i` regex flag, JS `toLowerCase` on
command lines, and `localeCompare(..., { sensitivity: 'base' })` equality. -/
def foldCase (l : List Char) : List Char := l.map Char.toLower

/-- `UNITY_EXECUTABLE_PATTERN = /Unity\.app\/Contents\/MacOS\/Unity/i`
(unityProcess.ts line 187): an unanchored case-insensitive substring test. -/
def isUnityMainProcess (command : String) : Bool :=
  isSubOf (String.toList "unity.app/contents/macos/unity") (foldCase command.toList)

/-- `isUnityAuxiliaryProcess` (unityProcess.ts lines 243-249): lower-case the
command and test for `-batchmode` or `assetimportworker`. -/
def isUnityAuxiliaryProcess (command : String) : Bool :=
  let normalized := foldCase command.toList
  isSubOf (String.toList "-batchmode") normalized ||
  isSubOf (String.toList "assetimportworker") normalized

/-- Scan for the closing occurrence of `q`: returns the run before it and the
remainder after it (the `[^q]*` body of a quoted regex alternative). -/
def takeUntilChar (q : Char) : List Char → Option (List Char × List Char)
  | [] => none
  | c :: rest =>
      if c = q then some ([], rest)
      else
        match takeUntilChar q rest with
        | some (pre, post) => some (c :: pre, post)
        | none => none

/-- A character that may appear in the unquoted capture alternative
`[^\s"']+` of `PROJECT_PATH_PATTERN`. -/
def isUnquotedArgChar (c : Char) : Bool :=
  !(isJsSpace c) && c ≠ dquote && c ≠ squote

/-- The capture group `("[^"]+"|'[^']+'|[^\s"']+)` of `PROJECT_PATH_PATTERN`
(unityProcess*.ts): quoted alternatives require at least one inner character;
the unquoted alternative is a maximal nonempty run. Returns the raw token
(quotes included) or `none` when no alternative matches here. -/
def parseArgTokenPlus : List Char → Option (List Char)
  | [] => none
  | c :: rest =>
      if c = dquote then
        match takeUntilChar dquote rest with
        | some (inner, _) => if inner.isEmpty then none else some (dquote :: inner ++ [dquote])
        | none => none
      else if c = squote then
        match takeUntilChar squote rest with
        | some (inner, _) => if inner.isEmpty then none else some (squote :: inner ++ [squote])
        | none => none
      else if isJsSpace c then none
      else some ((c :: rest).takeWhile isUnquotedArgChar)

/-- Attempt `PROJECT_PATH_PATTERN` (a case-insensitive regex: a dash, the literal
`projectpath`, then `=` or whitespace, then the capture group)
at the head of `l`: a `-`, the case-insensitive literal `projectpath`, then `=`
or at least one whitespace, then the capture group. -/
def matchProjectPathAt (l : List Char) : Option (List Char) :=
  match l with
  | [] => none
  | c :: rest =>
      if c = '-' && foldCase (rest.take 11) = String.toList "projectpath" then
        let after := rest.drop 11
        match after with
        | [] => none
        | a :: more =>
            if a = '=' then parseArgTokenPlus more
            else if isJsSpace a then parseArgTokenPlus (more.dropWhile isJsSpace)
            else none
      else none

/-- Leftmost-match scan for `PROJECT_PATH_PATTERN` over the command line. -/
def findProjectPathMatch : List Char → Option (List Char)
  | [] => none
  | c :: rest =>
      match matchProjectPathAt (c :: rest) with
      | some tok => some tok
      | none => findProjectPathMatch rest

/-- `extractProjectPath` (unityProcess.ts lines 218-237): first regex match,
`trim`, then strip symmetric surrounding quotes (`slice(1, -1)`). -/
def extractProjectPath (command : String) : Option String :=
  match findProjectPathMatch command.toList with
  | none => none
  | some raw =>
      let trimmed := trimChars raw
      if trimmed.head? = some dquote && trimmed.getLast? = some dquote then
        some (String.mk (trimmed.drop 1).dropLast)
      else if trimmed.head? = some squote && trimmed.getLast? = some squote then
        some (String.mk (trimmed.drop 1).dropLast)
      else
        some (String.mk trimmed)

/-! ## Path normalisation and comparison (both readers)

`normalizePath` calls `node:path`'s `resolve`, an external facility modelled as
an oracle `res : String → String`. -/

/-- `endsWith` against a single-character suffix. -/
def strEndsWithChar (s : String) (c : Char) : Bool :=
  match s.toList.getLast? with
  | some d => d = c
  | none => false

/-- JS `slice(0, -1)`. -/
def dropLastStr (s : String) : String := String.mk s.toList.dropLast

/-- macOS `normalizePath` (unityProcess.ts lines 204-210): resolve, then strip
one trailing `/`. -/
def normalizePathMac (res : String → String) (target : String) : String :=
  let resolved := res target
  if strEndsWithChar resolved '/' then dropLastStr resolved else resolved

/-- Windows `normalizePath` (unityProcess.win.ts lines 23-29): resolve, then
strip one trailing `/` or `\`. -/
def normalizePathWin (res : String → String) (target : String) : String :=
  let resolved := res target
  if strEndsWithChar resolved '/' || strEndsWithChar resolved '\\' then dropLastStr resolved
  else resolved

/-- `arePathsEqual` (both readers): `localeCompare(..., { sensitivity: 'base' })`
equality, modelled as case-folded equality of the normalised paths. -/
def arePathsEqual (normalize : String → String) (left right : String) : Bool :=
  foldCase (normalize left).toList = foldCase (normalize right).toList

/-! ## `MacUnityProcessReader` (unityProcess.ts lines 272-323) -/

/-- Digits-to-number conversion performed by `Number.parseInt(match[1], 10)` on
the pid capture of `/^(\d+)\s+(.*)$/` (always a finite number for a digit run,
so the `Number.isFinite` guard passes). -/
def natOfDigits (l : List Char) : Nat :=
  l.foldl (fun n c => n * 10 + (c.toNat - 48)) 0

/-- The pid capture of the per-line regex `/^(\d+)\s+(.*)$/`: the maximal
leading digit run. -/
def macLineDigits (line : String) : List Char :=
  line.toList.takeWhile Char.isDigit

/-- The mandatory whitespace between the pid and the command in
`/^(\d+)\s+(.*)$/`. -/
def macLineWs (line : String) : List Char :=
  (line.toList.dropWhile Char.isDigit).takeWhile isJsSpace

/-- The command capture of `/^(\d+)\s+(.*)$/`: everything after the pid and the
whitespace run. -/
def macLineCommand (line : String) : String :=
  String.mk ((line.toList.dropWhile Char.isDigit).dropWhile isJsSpace)

/-- One iteration of the `lines.map(...)` body in
`MacUnityProcessReader.listUnityProcesses` (unityProcess.ts lines 291-320):
parse the pid and command, drop non-Unity and auxiliary processes, extract the
`-projectPath` argument, and normalise it. -/
def parseMacPsLine (res : String → String) (line : String) : Option UnityProcess :=
  if (macLineDigits line).isEmpty then none
  else if (macLineWs line).isEmpty then none
  else if !(isUnityMainProcess (macLineCommand line)) then none
  else if isUnityAuxiliaryProcess (macLineCommand line) then none
  else
    match extractProjectPath (macLineCommand line) with
    | none => none
    | some projectArgument =>
        some { pid := Int.ofNat (natOfDigits (macLineDigits line))
               projectPath := normalizePathMac res projectArgument }

/-- `stdout.split('\n').map(trim).filter(length > 0)` (unityProcess.ts line 289). -/
def macPsLines (stdout : String) : List String :=
  (((splitOnChar '\n' stdout.toList).map (fun l => String.mk (trimChars l))).filter
    (fun s => s.length > 0))

/-- `MacUnityProcessReader.listUnityProcesses` applied to the `ps` stdout
(the `.map(...).filter(Boolean)` pipeline as a `filterMap`). -/
def macListUnityProcesses (res : String → String) (stdout : String) : List UnityProcess :=
  (macPsLines stdout).filterMap (parseMacPsLine res)

/-- `MacUnityProcessReader.findByProjectPath` (unityProcess.ts lines 273-278),
with the `ps` invocation result as an oracle: a rejected invocation is wrapped
into a `ProcessQueryFailed`-style error; otherwise the listing is searched with
`arePathsEqual`. -/
def macFindByProjectPath (res : String → String) (cmdResult : Except String String)
    (projectPath : String) : Except String (Option UnityProcess) :=
  match cmdResult with
  | .error e => .error ("Failed to retrieve Unity process list: " ++ e)
  | .ok stdout =>
      let normalizedTarget := normalizePathMac res projectPath
      .ok ((macListUnityProcesses res stdout).find?
        (fun candidate => arePathsEqual (normalizePathMac res) candidate.projectPath normalizedTarget))

/-! ## `WinUnityProcessReader` (unityProcess.win.ts lines 79-155)

The PowerShell invocation returns a JSON string; `JSON.parse` is the JS
runtime's parser, modelled as an oracle producing an optional `Json` value
(`none` = the parse threw). -/

/-- JSON values as produced by `JSON.parse`. -/
inductive Json
  | null
  | bool (b : Bool)
  | num (n : Int)
  | str (s : String)
  | arr (xs : List Json)
  | obj (fields : List (String × Json))

/-- JS truthiness of a `JSON.parse` result (`if (!parsed) return []`). -/
def jsFalsy : Json → Bool
  | .null => true
  | .bool b => !b
  | .num n => n = 0
  | .str s => s.isEmpty
  | .arr _ => false
  | .obj _ => false

/-- JS object property lookup; `JSON.parse` keeps the last duplicate key. -/
def jsonLookup (fields : List (String × Json)) (key : String) : Option Json :=
  fields.foldl (fun acc kv => if kv.1 = key then some kv.2 else acc) none

/-- A row accepted by the `parsePowershellJson` guard
(`r && typeof r === 'object' && typeof r.ProcessId === 'number'`), with
`CommandLine` kept only when it is a string (`row.CommandLine ?? ''` turns a
missing or `null` value into the empty string). -/
structure PsProcessRow where
  processId : Int
  commandLine : Option String
deriving DecidableEq

/-- The row guard of `parsePowershellJson`: an object with a numeric
`ProcessId`. -/
def rowOfJson : Json → Option PsProcessRow
  | .obj fields =>
      match jsonLookup fields "ProcessId" with
      | some (.num n) =>
          some { processId := n
                 commandLine :=
                   match jsonLookup fields "CommandLine" with
                   | some (.str s) => some s
                   | _ => none }
      | _ => none
  | _ => none

/-- `parsePowershellJson` (unityProcess.win.ts lines 84-101): a `JSON.parse`
failure or a falsy result yields `[]`; an array is filtered by the row guard; a
single value passing the guard becomes a one-row list; anything else is `[]`. -/
def parsePowershellJson (parsed : Option Json) : List PsProcessRow :=
  match parsed with
  | none => []
  | some v =>
      if jsFalsy v then []
      else
        match v with
        | .arr xs => xs.filterMap rowOfJson
        | _ =>
            match rowOfJson v with
            | some r => [r]
            | none => []

/-- Oracle inputs for the Windows reader: the `node:path` `resolve` facility and
the PowerShell invocation outcome (`.error` = the invocation itself rejected,
`.ok parsed` = it succeeded and `JSON.parse` of its trimmed stdout gave
`parsed`, or threw when `parsed = none`). -/
structure WinReaderEnv where
  res : String → String
  cmdResult : Except String (Option Json)

/-- `WinUnityProcessReader.listUnityProcesses` (unityProcess.win.ts lines
110-154): a failed PowerShell invocation is a hard error; otherwise the parsed
rows are mapped to processes, dropping rows without an extractable
`-projectPath` argument. There is no auxiliary-process filter on this path. -/
def winListUnityProcesses (env : WinReaderEnv) : Except String (List UnityProcess) :=
  match env.cmdResult with
  | .error e => .error ("Failed to retrieve Unity process list: " ++ e)
  | .ok parsed =>
      .ok ((parsePowershellJson parsed).filterMap (fun row =>
        let commandLine := row.commandLine.getD ""
        match extractProjectPath commandLine with
        | none => none
        | some projectArgument =>
            some { pid := row.processId
                   projectPath := normalizePathWin env.res projectArgument }))

/-- `WinUnityProcessReader.findByProjectPath` (unityProcess.win.ts lines 104-108). -/
def winFindByProjectPath (env : WinReaderEnv) (projectPath : String) :
    Except String (Option UnityProcess) :=
  match winListUnityProcesses env with
  | .error e => .error e
  | .ok processes =>
      let normalizedTarget := normalizePathWin env.res projectPath
      .ok (processes.find?
        (fun candidate => arePathsEqual (normalizePathWin env.res) candidate.projectPath normalizedTarget))

/-! ## Editor path resolvers (`src/infrastructure/editor.ts` and the
`WinEditorPathResolver` file)

`node:path`'s `join` is external; for separator-free segments it concatenates
the nonempty segments with the platform separator (`'.'` when all are empty),
which is what `joinSegs` implements. Filesystem `access` checks are oracles. -/

/-- JS `Array.prototype.join(sep)`. -/
def joinArr (sep : String) : List String → String
  | [] => ""
  | [x] => x
  | x :: y :: xs => x ++ sep ++ joinArr sep (y :: xs)

/-- `node:path` `join` for segments that contain no trailing separators. -/
def joinSegs (sep : String) (parts : List String) : String :=
  let ps := parts.filter (fun s => !s.isEmpty)
  if ps.isEmpty then "." else joinArr sep ps

/-- `UNITY_EDITOR_BASE` (editor.ts line 8). -/
def UNITY_EDITOR_BASE : String := "/Applications/Unity/Hub/Editor"

/-- `UNITY_BINARY_PATH` (editor.ts line 9). -/
def UNITY_BINARY_PATH : String := "Unity.app/Contents/MacOS/Unity"

/-- The single candidate path probed by `MacEditorPathResolver.resolve`. -/
def macEditorCandidate (version : String) : String :=
  joinSegs "/" [UNITY_EDITOR_BASE, version, UNITY_BINARY_PATH]

/-- The message of the error thrown by `MacEditorPathResolver.resolve`
(editor.ts line 18): a Japanese sentence naming only the version. -/
def macEditorNotFoundMsg (version : String) : String :=
  "対応するUnity Editorが見つかりません（" ++ version ++ "）"

/-- `MacEditorPathResolver.resolve` (editor.ts lines 11-23), with the
executable-access check (`access(path, X_OK)`) as an oracle. -/
def macResolveEditorPath (accessX : String → Bool) (version : EditorVersion) :
    Except String String :=
  let editorPath := macEditorCandidate version.value
  if accessX editorPath then .ok editorPath
  else .error (macEditorNotFoundMsg version.value)

/-- The Windows environment variables consulted by `buildCandidateBases`
(`none` = unset; JS `??` keeps an empty string, while `if (v)` rejects it). -/
structure WinEditorEnvVars where
  programFilesVar : Option String
  programW6432Var : Option String
  localAppDataVar : Option String

/-- Worker for `dedupFirst`: skip elements already seen. -/
def dedupFirstGo (seen : List String) : List String → List String
  | [] => []
  | x :: xs => if x ∈ seen then dedupFirstGo seen xs else x :: dedupFirstGo (x :: seen) xs

/-- `Array.from(new Set(candidates))`: deduplicate keeping first occurrences. -/
def dedupFirst (l : List String) : List String := dedupFirstGo [] l

/-- `buildCandidateBases` from the Windows editor resolver: Program Files
(with default), ProgramW6432 (falling back to PROGRAMFILES, skipped when
falsy), LOCALAPPDATA (skipped when falsy), deduplicated. -/
def buildCandidateBases (env : WinEditorEnvVars) : List String :=
  let programFiles := env.programFilesVar.getD "C:\\Program Files"
  let programW6432 :=
    match env.programW6432Var with
    | some s => some s
    | none => env.programFilesVar
  let candidates :=
    [joinSegs "\\" [programFiles, "Unity", "Hub", "Editor"]]
      ++ (match programW6432 with
          | some s => if s.isEmpty then [] else [joinSegs "\\" [s, "Unity", "Hub", "Editor"]]
          | none => [])
      ++ (match env.localAppDataVar with
          | some s => if s.isEmpty then [] else [joinSegs "\\" [s, "Unity", "Hub", "Editor"]]
          | none => [])
  dedupFirst candidates

/-- The candidate probed for one base in `WinEditorPathResolver.resolve`. -/
def winEditorCandidate (version : String) (base : String) : String :=
  joinSegs "\\" [base, version, "Editor", "Unity.exe"]

/-- The message of the error thrown by `WinEditorPathResolver.resolve`:
names the version and joins every tried path with `' , '`. -/
def winEditorNotFoundMsg (version : String) (tried : List String) : String :=
  "Unity Editor not found for version " ++ version ++ ". Tried: " ++ joinArr " , " tried

/-- The probe loop of `WinEditorPathResolver.resolve`: return the first
accessible candidate, else accumulate it into `tried`. -/
def winResolveGo (accessF : String → Bool) (version : String) :
    List String → List String → Except String String
  | [], tried => .error (winEditorNotFoundMsg version tried)
  | base :: rest, tried =>
      let candidate := winEditorCandidate version base
      if accessF candidate then .ok candidate
      else winResolveGo accessF version rest (tried ++ [candidate])

/-- `WinEditorPathResolver.resolve`, with the file-access check as an oracle. -/
def winResolveEditorPath (accessF : String → Bool) (env : WinEditorEnvVars)
    (version : EditorVersion) : Except String String :=
  winResolveGo accessF version.value (buildCandidateBases env) []

/-- All candidate paths `WinEditorPathResolver.resolve` probes, in order. -/
def winEditorCandidates (env : WinEditorEnvVars) (version : EditorVersion) : List String :=
  (buildCandidateBases env).map (winEditorCandidate version.value)

/-! ## `WinUnityHubProjectsReader.readCliArgs` (unityhub.win.ts lines 145-173)

The tokenizer regex (three alternatives: a double-quoted group with `*` body, a
single-quoted group with `*` body, or a maximal run of non-space non-quote
characters) is applied globally; each token then has one leading and one
trailing quote stripped. -/

/-- One global-scan step budgeted by fuel (every step consumes at least one
character, so `l.length` fuel always suffices). At a quote with no closing
partner, or at whitespace, no alternative matches and the scan advances one
character, exactly as the JS regex engine does. -/
def tokenizeCliArgsGo : Nat → List Char → List (List Char)
  | 0, _ => []
  | _ + 1, [] => []
  | fuel + 1, c :: rest =>
      if c = dquote then
        match takeUntilChar dquote rest with
        | some (inner, post) => (dquote :: inner ++ [dquote]) :: tokenizeCliArgsGo fuel post
        | none => tokenizeCliArgsGo fuel rest
      else if c = squote then
        match takeUntilChar squote rest with
        | some (inner, post) => (squote :: inner ++ [squote]) :: tokenizeCliArgsGo fuel post
        | none => tokenizeCliArgsGo fuel rest
      else if isJsSpace c then tokenizeCliArgsGo fuel rest
      else
        let run := (c :: rest).takeWhile isUnquotedArgChar
        run :: tokenizeCliArgsGo fuel ((c :: rest).dropWhile isUnquotedArgChar)

/-- `cliArgs.match(tokenRegex)` (unityhub.win.ts line 167) as a token list
(`null` becomes the empty list). -/
def tokenizeCliArgs (s : String) : List (List Char) :=
  tokenizeCliArgsGo s.toList.length s.toList

/-- `token.replace(quoteEdgeRegex, '')` (unityhub.win.ts line 172): remove a
leading quote if present, then a trailing quote of what remains. -/
def stripTokenQuotes (l : List Char) : List Char :=
  let l1 :=
    match l with
    | c :: rest => if c = dquote || c = squote then rest else l
    | [] => []
  match l1.getLast? with
  | some c => if c = dquote || c = squote then l1.dropLast else l1
  | none => l1

/-- Oracle inputs for `readCliArgs`: the `projectsInfo.json` read outcome and
the `JSON.parse` oracle applied to its content (`none` = the parse threw). -/
structure ReadCliArgsEnv where
  content : Except Unit String
  parsed : Option Json

/-- `WinUnityHubProjectsReader.readCliArgs`: empty on read failure, parse
failure, missing entry or falsy `cliArgs`; otherwise tokenize and strip
quotes. A non-string `cliArgs` cannot occur in a well-typed settings file and
is treated as absent. -/
def readCliArgs (env : ReadCliArgsEnv) (projectPath : String) : List String :=
  match env.content with
  | .error _ => []
  | .ok _ =>
      match env.parsed with
      | none => []
      | some json =>
          match json with
          | .obj fields =>
              match jsonLookup fields projectPath with
              | some (.obj entryFields) =>
                  match jsonLookup entryFields "cliArgs" with
                  | some (.str s) =>
                      if s.isEmpty then []
                      else (tokenizeCliArgs s).map (fun t => String.mk (stripTokenQuotes t))
                  | _ => []
              | _ => []
          | _ => []

/-! ## Helper lemmas about substring containment -/

theorem isSubOf_of_isPrefixOf {needle hay : List Char} (h : needle.isPrefixOf hay = true) :
    isSubOf needle hay = true := by
  cases hay with
  | nil =>
      cases needle with
      | nil => rfl
      | cons c cs => simp [List.isPrefixOf] at h
  | cons c rest => simp [isSubOf, h]

theorem isSubOf_cons_right {needle hay : List Char} (c : Char)
    (h : isSubOf needle hay = true) : isSubOf needle (c :: hay) = true := by
  simp [isSubOf, h]

theorem isSubOf_append_left {needle hay : List Char} (pre : List Char)
    (h : isSubOf needle hay = true) : isSubOf needle (pre ++ hay) = true := by
  induction pre with
  | nil => simpa using h
  | cons c cs ih => simpa using isSubOf_cons_right c ih

theorem isPrefixOf_append_right {needle hay : List Char} (post : List Char)
    (h : needle.isPrefixOf hay = true) : needle.isPrefixOf (hay ++ post) = true := by
  rw [List.isPrefixOf_iff_prefix] at h ⊢
  exact h.trans (List.prefix_append hay post)

theorem isSubOf_append_right {needle hay : List Char} (post : List Char)
    (h : isSubOf needle hay = true) : isSubOf needle (hay ++ post) = true := by
  induction hay with
  | nil =>
      simp only [isSubOf, List.isEmpty_iff] at h
      subst h
      exact isSubOf_of_isPrefixOf (by simp [List.isPrefixOf_iff_prefix])
  | cons c rest ih =>
      simp only [isSubOf, Bool.or_eq_true] at h
      cases h with
      | inl hp =>
          have hp2 : needle.isPrefixOf (c :: (rest ++ post)) = true :=
            isPrefixOf_append_right post hp
          show (needle.isPrefixOf (c :: (rest ++ post)) || isSubOf needle (rest ++ post)) = true
          rw [hp2, Bool.true_or]
      | inr hs => exact isSubOf_cons_right c (ih hs)

theorem isSubOf_self (l : List Char) : isSubOf l l = true :=
  isSubOf_of_isPrefixOf (by rw [List.isPrefixOf_iff_prefix])

/-- Every element of `parts` occurs inside `joinArr sep parts`. -/
theorem isSubOf_joinArr (sep : String) (parts : List String) (s : String)
    (hmem : s ∈ parts) : isSubOf s.toList (joinArr sep parts).toList = true := by
  induction parts with
  | nil => cases hmem
  | cons x xs ih =>
      cases hmem with
      | head =>
          cases xs with
          | nil => exact isSubOf_self s.toList
          | cons y ys =>
              show isSubOf s.toList (s ++ sep ++ joinArr sep (y :: ys)).toList = true
              have : (s ++ sep ++ joinArr sep (y :: ys)).toList
                  = s.toList ++ (sep.toList ++ (joinArr sep (y :: ys)).toList) := by simp
              rw [this]
              exact isSubOf_append_right _ (isSubOf_self s.toList)
      | tail _ hxs =>
          cases xs with
          | nil => cases hxs
          | cons y ys =>
              show isSubOf s.toList (x ++ sep ++ joinArr sep (y :: ys)).toList = true
              have : (x ++ sep ++ joinArr sep (y :: ys)).toList
                  = (x.toList ++ sep.toList) ++ (joinArr sep (y :: ys)).toList := by simp
              rw [this]
              exact isSubOf_append_left _ (ih hxs)

/-! ## Claim theorems -/

/-- C8: For every project, the derived three-value launch status is computed
as `'running'` if a live process is found for the project (regardless of
lock-marker state), otherwise `'crashed'` if the lock marker is present,
otherwise `'idle'` (`ListProjectsUseCase.determineLaunchStatus` applied to the
settled per-project results). -/
theorem launch_status_derivation (project : UnityProject) (r : SettledResults) :
    ((projectViewOf project r).launchStatus = LaunchStatus.running
        ↔ settledHasRunningProcess r = true)
    ∧ ((projectViewOf project r).launchStatus = LaunchStatus.crashed
        ↔ settledHasRunningProcess r = false ∧ settledIsLocked r = true)
    ∧ ((projectViewOf project r).launchStatus = LaunchStatus.idle
        ↔ settledHasRunningProcess r = false ∧ settledIsLocked r = false) := by
  unfold projectViewOf determineLaunchStatus
  cases h1 : settledHasRunningProcess r <;> cases h2 : settledIsLocked r <;> simp [h1, h2]

/-- C2: For every termination attempt that reports success, the project's
Temp cleanup is invoked if and only if the recorded stage of the outcome is
`'sigterm'` or `'sigkill'`; a `'graceful'` exit and a failed or no-op
termination never trigger cleanup (`TerminateProjectUseCase.execute`). -/
theorem terminate_cleanup_iff_forceful_or_kill (env : TerminateUCEnv)
    (res : TerminateUCResult) (cleaned : Bool)
    (h : terminateProject env = .ok (res, cleaned)) :
    cleaned = true
      ↔ ∃ (proc : UnityProcess) (t : TermOutcome),
          env.findResult = .ok (some proc) ∧ env.termResult = .ok t
            ∧ t.terminated = true
            ∧ (t.stage = some Stage.sigterm ∨ t.stage = some Stage.sigkill) := by
  obtain ⟨findR, termR, cleanF⟩ := env
  cases findR with
  | error e => exact Except.noConfusion h
  | ok proc? =>
      cases proc? with
      | none =>
          injection h with h2
          injection h2 with hres hcl
          subst hres
          subst hcl
          simp
      | some proc =>
          cases termR with
          | error e => exact Except.noConfusion h
          | ok t =>
              obtain ⟨term, stg⟩ := t
              cases term with
              | false =>
                  injection h with h2
                  injection h2 with hres hcl
                  subst hres
                  subst hcl
                  simp
              | true =>
                  injection h with h2
                  injection h2 with hres hcl
                  subst hres
                  subst hcl
                  constructor
                  · intro hc
                    exact ⟨proc, ⟨true, stg⟩, rfl, rfl, rfl, of_decide_eq_true hc⟩
                  · rintro ⟨p, t2, -, hte, -, hstage⟩
                    injection hte with hte
                    subst hte
                    exact decide_eq_true hstage

/-- C2 witness: a successful sigterm-stage termination reports cleanup
invoked. -/
theorem terminate_cleanup_iff_forceful_or_kill_witness :
    (true = true
      ↔ ∃ (proc : UnityProcess) (t : TermOutcome),
          ({ findResult := .ok (some ⟨1, "/p"⟩),
             termResult := .ok { terminated := true, stage := some Stage.sigterm },
             cleanFails := false } : TerminateUCEnv).findResult = .ok (some proc)
          ∧ ({ findResult := .ok (some ⟨1, "/p"⟩),
               termResult := .ok { terminated := true, stage := some Stage.sigterm },
               cleanFails := false } : TerminateUCEnv).termResult = .ok t
          ∧ t.terminated = true
          ∧ (t.stage = some Stage.sigterm ∨ t.stage = some Stage.sigkill)) :=
  terminate_cleanup_iff_forceful_or_kill
    { findResult := .ok (some ⟨1, "/p"⟩)
      termResult := .ok { terminated := true, stage := some Stage.sigterm }
      cleanFails := false }
    { terminated := true, message := none } true rfl

/-- C3: For every project path for which the lock marker file exists and the
process directory finds no matching live process, `UnityLockChecker.check`
returns `'allow'` and `TempCleaner.clean` is invoked exactly once before
returning; the result is `'allow'` for every outcome of the cleanup and of the
lock-marker deletion (`cleanOk` and `rmOk` are unconstrained). -/
theorem admission_stale_lock_allows_and_cleans (env : CheckEnv)
    (hfind : env.findResult = .ok none) (hlock : env.hasLockfile = true) :
    lockCheck env
        = .ok (Decision.allow, [CheckEvent.findProcess, CheckEvent.cleanTemp, CheckEvent.removeLock])
      ∧ ∀ d evts, lockCheck env = .ok (d, evts) → evts.count CheckEvent.cleanTemp = 1 := by
  obtain ⟨findR, lock, darwin, bring, clean, rm⟩ := env
  cases hfind
  cases hlock
  refine ⟨rfl, ?_⟩
  intro d evts h
  injection h with h2
  injection h2 with hd hevts
  subst hevts
  rfl

/-- C3 witness: a concrete stale-lock project (lock marker present, no live
process) is admitted with exactly one cleanup call, even though both the
cleanup and the lock-marker deletion fail. -/
theorem admission_stale_lock_allows_and_cleans_witness :
    (lockCheck
          { findResult := .ok none, hasLockfile := true, isDarwin := true,
            bringOk := true, cleanOk := false, rmOk := false }
        = .ok (Decision.allow, [CheckEvent.findProcess, CheckEvent.cleanTemp, CheckEvent.removeLock]))
      ∧ ∀ d evts,
          lockCheck
              { findResult := .ok none, hasLockfile := true, isDarwin := true,
                bringOk := true, cleanOk := false, rmOk := false }
            = .ok (d, evts) → evts.count CheckEvent.cleanTemp = 1 :=
  admission_stale_lock_allows_and_cleans
    { findResult := .ok none, hasLockfile := true, isDarwin := true,
      bringOk := true, cleanOk := false, rmOk := false } rfl rfl

/-- C1 counterexample: `LaunchProjectUseCase.execute` does consult the lock
checker for an admission decision. With identical collaborator behaviour except
for the admission decision, launch aborts with `LaunchCancelledError` (spawning
nothing) when the checker answers `'skip'`, and spawns when it answers
`'allow'`; in both runs the admission check is the first performed call. -/
theorem launch_consults_lock_checker_counterexample :
    (launchExecute
          { lockDecision := .ok Decision.skip, resolveResult := .ok "/ed/Unity",
            extraArgs := [], spawnResult := .ok (), updateResult := .ok () }
          { id := "/p", title := "p", path := "/p", version := ⟨"2022.3.1f1"⟩,
            lastModified := none, favorite := false }
        = (.error LaunchError.cancelled, [LaunchEvent.checkAdmission]))
      ∧ (launchExecute
            { lockDecision := .ok Decision.allow, resolveResult := .ok "/ed/Unity",
              extraArgs := [], spawnResult := .ok (), updateResult := .ok () }
            { id := "/p", title := "p", path := "/p", version := ⟨"2022.3.1f1"⟩,
              lastModified := none, favorite := false }
          = (.ok (),
             [LaunchEvent.checkAdmission, LaunchEvent.resolveEditor, LaunchEvent.readExtraArgs,
              LaunchEvent.spawn "/ed/Unity" ["-projectPath", "/p"] true,
              LaunchEvent.recordTimestamp])) := by
  constructor
  · rfl
  · rfl

/-- C1 (amended): `LaunchProjectUseCase.execute` consults the lock checker
first; on `'skip'` it throws `LaunchCancelledError` without resolving,
spawning or recording anything, and on `'allow'` it resolves the editor
binary, reads the extra args, spawns detached with
`['-projectPath', path, ...extraArgs]`, then records the timestamp. -/
theorem launch_admission_first (env : LaunchEnv) (project : UnityProject)
    (editorPath : String) :
    (env.lockDecision = .ok Decision.skip
      → launchExecute env project = (.error LaunchError.cancelled, [LaunchEvent.checkAdmission]))
    ∧ (env.lockDecision = .ok Decision.allow
      → env.resolveResult = .ok editorPath
      → env.spawnResult = .ok ()
      → env.updateResult = .ok ()
      → launchExecute env project
          = (.ok (),
             [LaunchEvent.checkAdmission, LaunchEvent.resolveEditor, LaunchEvent.readExtraArgs,
              LaunchEvent.spawn editorPath (["-projectPath", project.path] ++ env.extraArgs) true,
              LaunchEvent.recordTimestamp])) := by
  obtain ⟨lockD, resolveR, extra, spawnR, updateR⟩ := env
  constructor
  · intro hd
    cases hd
    rfl
  · intro hd hr hs hu
    cases hd
    cases hr
    cases hs
    cases hu
    rfl

/-- C1 amended witness: the two branches of `launch_admission_first` at
concrete environments. -/
theorem launch_admission_first_witness :
    (((.ok Decision.skip : Except String Decision) = .ok Decision.skip
      → launchExecute
            { lockDecision := .ok Decision.skip, resolveResult := .ok "/ed/Unity",
              extraArgs := ["-extra"], spawnResult := .ok (), updateResult := .ok () }
            { id := "/p", title := "p", path := "/p", version := ⟨"2022.3.1f1"⟩,
              lastModified := none, favorite := false }
          = (.error LaunchError.cancelled, [LaunchEvent.checkAdmission]))
    ∧ (((.ok Decision.skip : Except String Decision) = .ok Decision.allow)
      → ((.ok "/ed/Unity" : Except String String) = .ok "/ed/Unity")
      → ((.ok () : Except String Unit) = .ok ())
      → ((.ok () : Except String Unit) = .ok ())
      → launchExecute
            { lockDecision := .ok Decision.skip, resolveResult := .ok "/ed/Unity",
              extraArgs := ["-extra"], spawnResult := .ok (), updateResult := .ok () }
            { id := "/p", title := "p", path := "/p", version := ⟨"2022.3.1f1"⟩,
              lastModified := none, favorite := false }
          = (.ok (),
             [LaunchEvent.checkAdmission, LaunchEvent.resolveEditor, LaunchEvent.readExtraArgs,
              LaunchEvent.spawn "/ed/Unity" (["-projectPath", "/p"] ++ ["-extra"]) true,
              LaunchEvent.recordTimestamp]))) :=
  launch_admission_first
    { lockDecision := .ok Decision.skip, resolveResult := .ok "/ed/Unity",
      extraArgs := ["-extra"], spawnResult := .ok (), updateResult := .ok () }
    { id := "/p", title := "p", path := "/p", version := ⟨"2022.3.1f1"⟩,
      lastModified := none, favorite := false }
    "/ed/Unity"

/-- C4: For every termination attempt against a pid that no longer exists
(every liveness poll observes it gone and signal delivery fails with
process-not-found), both terminators report confirmed successful termination
with the earliest attempted stage recorded — `'graceful'` on darwin,
`'sigterm'` otherwise on macOS, `'sigterm'` on Windows — and never invoke the
kill / force stage. -/
theorem terminate_missing_pid_confirms :
    (∀ (env : MacTermEnv) (proc : UnityProcess),
        env.gracefulPollDead = true → env.sigtermRes = KillResult.esrch
        → ∃ evts,
            macTerminate env proc
              = .ok ({ terminated := true,
                       stage := some (if env.isDarwin then Stage.graceful else Stage.sigterm) }, evts)
            ∧ MacTermEvent.killSigkill ∉ evts)
    ∧ (∀ env : WinTermEnv,
        env.stopOk = false → env.aliveAfterStopFail = false
        → winTerminate env
            = ({ terminated := true, stage := some Stage.sigterm }, [WinTermEvent.stopProcess])) := by
  constructor
  · intro env proc hdead hesrch
    obtain ⟨darwin, osaOk, gDead, stRes, stDead, skRes, alive⟩ := env
    cases hdead
    cases hesrch
    cases darwin with
    | false =>
        refine ⟨[MacTermEvent.killSigterm], rfl, ?_⟩
        simp
    | true =>
        cases osaOk with
        | true =>
            refine ⟨[MacTermEvent.osascriptQuit], rfl, ?_⟩
            simp
        | false =>
            refine ⟨[MacTermEvent.osascriptQuit, MacTermEvent.killSigterm], rfl, ?_⟩
            simp
  · intro env hstop halive
    obtain ⟨stopOk, aliveStop, pollDead, forceOk, aliveForce, aliveKill⟩ := env
    cases hstop
    cases halive
    rfl

/-- C4 witness: a gone pid on darwin (AppleScript fails, SIGTERM raises ESRCH)
is reported terminated at the graceful stage with no SIGKILL sent; on Windows a
failed `Stop-Process` against a dead pid is reported terminated at the sigterm
stage with no force stage. -/
theorem terminate_missing_pid_confirms_witness :
    (∃ evts,
        macTerminate
            { isDarwin := true, osascriptOk := false, gracefulPollDead := true,
              sigtermRes := KillResult.esrch, sigtermPollDead := true,
              sigkillRes := KillResult.esrch, aliveAfterKill := false }
            ⟨42, "/p"⟩
          = .ok ({ terminated := true,
                   stage := some (if ({ isDarwin := true, osascriptOk := false,
                                        gracefulPollDead := true, sigtermRes := KillResult.esrch,
                                        sigtermPollDead := true, sigkillRes := KillResult.esrch,
                                        aliveAfterKill := false } : MacTermEnv).isDarwin
                                  then Stage.graceful else Stage.sigterm) }, evts)
        ∧ MacTermEvent.killSigkill ∉ evts)
    ∧ winTerminate
          { stopOk := false, aliveAfterStopFail := false, stopPollDead := false,
            forceOk := true, aliveAfterForceFail := false, aliveAfterKill := false }
        = ({ terminated := true, stage := some Stage.sigterm }, [WinTermEvent.stopProcess]) :=
  ⟨terminate_missing_pid_confirms.1
      { isDarwin := true, osascriptOk := false, gracefulPollDead := true,
        sigtermRes := KillResult.esrch, sigtermPollDead := true,
        sigkillRes := KillResult.esrch, aliveAfterKill := false }
      ⟨42, "/p"⟩ rfl rfl,
   terminate_missing_pid_confirms.2
      { stopOk := false, aliveAfterStopFail := false, stopPollDead := false,
        forceOk := true, aliveAfterForceFail := false, aliveAfterKill := false }
      rfl rfl⟩

/-- C5: For every termination attempt in which the process survives the
graceful window, the SIGTERM window and the kill attempt's settle delay, the
terminator returns `terminated: false` with no stage recorded (both
platforms). -/
theorem terminate_survivor_reports_failure :
    (∀ (env : MacTermEnv) (proc : UnityProcess),
        (env.isDarwin && env.osascriptOk && env.gracefulPollDead) = false
        → env.sigtermRes = KillResult.ok → env.sigtermPollDead = false
        → env.sigkillRes = KillResult.ok → env.aliveAfterKill = true
        → ∃ evts, macTerminate env proc = .ok ({ terminated := false, stage := none }, evts))
    ∧ (∀ env : WinTermEnv,
        (env.stopOk = true ∨ env.aliveAfterStopFail = true)
        → env.stopPollDead = false → env.forceOk = true → env.aliveAfterKill = true
        → winTerminate env
            = ({ terminated := false, stage := none },
               [WinTermEvent.stopProcess, WinTermEvent.stopProcessForce])) := by
  constructor
  · intro env proc hng hst hsp hsk hal
    obtain ⟨darwin, osaOk, gDead, stRes, stDead, skRes, alive⟩ := env
    simp only at hng hst hsp hsk hal
    cases hst
    cases hsp
    cases hsk
    cases hal
    refine ⟨(if darwin then [MacTermEvent.osascriptQuit] else [])
        ++ [MacTermEvent.killSigterm, MacTermEvent.killSigkill], ?_⟩
    unfold macTerminate
    rw [hng]
    rfl
  · intro env hstop hpoll hforce halive
    obtain ⟨stopOk, aliveStop, pollDead, forceOk, aliveForce, aliveKill⟩ := env
    simp only at hstop hpoll hforce halive
    cases hpoll
    cases hforce
    cases halive
    cases hstop with
    | inl h => cases h; rfl
    | inr h =>
        cases h
        cases stopOk with
        | false => rfl
        | true => rfl

/-- C5 witness: a process that survives every stage on both platforms yields
`terminated: false` with no stage. -/
theorem terminate_survivor_reports_failure_witness :
    (∃ evts,
        macTerminate
            { isDarwin := true, osascriptOk := true, gracefulPollDead := false,
              sigtermRes := KillResult.ok, sigtermPollDead := false,
              sigkillRes := KillResult.ok, aliveAfterKill := true }
            ⟨42, "/p"⟩
          = .ok ({ terminated := false, stage := none }, evts))
    ∧ winTerminate
          { stopOk := true, aliveAfterStopFail := false, stopPollDead := false,
            forceOk := true, aliveAfterForceFail := false, aliveAfterKill := true }
        = ({ terminated := false, stage := none },
           [WinTermEvent.stopProcess, WinTermEvent.stopProcessForce]) :=
  ⟨terminate_survivor_reports_failure.1
      { isDarwin := true, osascriptOk := true, gracefulPollDead := false,
        sigtermRes := KillResult.ok, sigtermPollDead := false,
        sigkillRes := KillResult.ok, aliveAfterKill := true }
      ⟨42, "/p"⟩ rfl rfl rfl rfl rfl,
   terminate_survivor_reports_failure.2
      { stopOk := true, aliveAfterStopFail := false, stopPollDead := false,
        forceOk := true, aliveAfterForceFail := false, aliveAfterKill := true }
      (Or.inl rfl) rfl rfl rfl⟩

/-- When no candidate is accessible, the Windows probe loop errors with the
accumulated tried list followed by every remaining candidate. -/
theorem winResolveGo_all_fail (accessF : String → Bool) (version : String)
    (bases : List String) :
    ∀ tried : List String,
      (∀ b ∈ bases, accessF (winEditorCandidate version b) = false)
      → winResolveGo accessF version bases tried
          = .error (winEditorNotFoundMsg version
              (tried ++ bases.map (winEditorCandidate version))) := by
  induction bases with
  | nil =>
      intro tried _
      simp [winResolveGo]
  | cons b bs ih =>
      intro tried h
      have hb := h b (List.mem_cons_self b bs)
      show (if accessF (winEditorCandidate version b) then _ else _) = _
      rw [hb]
      simp only [Bool.false_eq_true, if_false]
      rw [ih (tried ++ [winEditorCandidate version b])
        (fun x hx => h x (List.mem_cons_of_mem b hx))]
      simp

/-- C6 counterexample: with no editor installed, the macOS resolver's error
message names only the version — it does not contain the attempted path
`/Applications/Unity/Hub/Editor/2022.3.1f1/Unity.app/Contents/MacOS/Unity`,
so the message does not enumerate (or even mention) any tried path. -/
theorem mac_resolve_message_counterexample :
    macResolveEditorPath (fun _ => false) ⟨"2022.3.1f1"⟩
        = .error (macEditorNotFoundMsg "2022.3.1f1")
      ∧ macEditorCandidate "2022.3.1f1"
        = "/Applications/Unity/Hub/Editor/2022.3.1f1/Unity.app/Contents/MacOS/Unity"
      ∧ isSubOf (macEditorCandidate "2022.3.1f1").toList
          (macEditorNotFoundMsg "2022.3.1f1").toList = false := by
  refine ⟨rfl, rfl, ?_⟩
  decide

/-- C6 (amended): when no installation matches, the Windows resolver fails
with an error whose message enumerates every path tried (each candidate occurs
in the message), while the macOS resolver fails with a message naming only the
version (its single candidate path is not included — see the counterexample). -/
theorem editor_not_found_message_policy :
    (∀ (accessF : String → Bool) (env : WinEditorEnvVars) (version : EditorVersion),
        (∀ c ∈ winEditorCandidates env version, accessF c = false)
        → winResolveEditorPath accessF env version
            = .error (winEditorNotFoundMsg version.value (winEditorCandidates env version))
          ∧ ∀ c ∈ winEditorCandidates env version,
              isSubOf c.toList
                (winEditorNotFoundMsg version.value (winEditorCandidates env version)).toList
                = true)
    ∧ (∀ (accessX : String → Bool) (version : EditorVersion),
        accessX (macEditorCandidate version.value) = false
        → macResolveEditorPath accessX version = .error (macEditorNotFoundMsg version.value)) := by
  constructor
  · intro accessF env version h
    constructor
    · have := winResolveGo_all_fail accessF version.value (buildCandidateBases env) []
        (fun b hb => h (winEditorCandidate version.value b)
          (List.mem_map_of_mem (winEditorCandidate version.value) hb))
      simpa [winResolveEditorPath, winEditorCandidates] using this
    · intro c hc
      have hsub : isSubOf c.toList
          (joinArr " , " (winEditorCandidates env version)).toList = true :=
        isSubOf_joinArr " , " (winEditorCandidates env version) c hc
      have hdecomp :
          (winEditorNotFoundMsg version.value (winEditorCandidates env version)).toList
            = ("Unity Editor not found for version " ++ version.value ++ ". Tried: ").toList
              ++ (joinArr " , " (winEditorCandidates env version)).toList := by
        simp [winEditorNotFoundMsg]
      rw [hdecomp]
      exact isSubOf_append_left _ hsub
  · intro accessX version h
    simp [macResolveEditorPath, h]

/-- C6 amended witness: concrete Windows environment where nothing is
installed (both candidate paths appear in the message), and a concrete macOS
version. -/
theorem editor_not_found_message_policy_witness :
    ((∀ c ∈ winEditorCandidates
          ⟨some "C:\\Program Files", none, some "C:\\Users\\me\\AppData\\Local"⟩ ⟨"2022.3.1f1"⟩,
        (fun (_ : String) => false) c = false)
      → winResolveEditorPath (fun _ => false)
            ⟨some "C:\\Program Files", none, some "C:\\Users\\me\\AppData\\Local"⟩ ⟨"2022.3.1f1"⟩
          = .error (winEditorNotFoundMsg "2022.3.1f1"
              (winEditorCandidates
                ⟨some "C:\\Program Files", none, some "C:\\Users\\me\\AppData\\Local"⟩
                ⟨"2022.3.1f1"⟩))
        ∧ ∀ c ∈ winEditorCandidates
              ⟨some "C:\\Program Files", none, some "C:\\Users\\me\\AppData\\Local"⟩
              ⟨"2022.3.1f1"⟩,
            isSubOf c.toList
              (winEditorNotFoundMsg "2022.3.1f1"
                (winEditorCandidates
                  ⟨some "C:\\Program Files", none, some "C:\\Users\\me\\AppData\\Local"⟩
                  ⟨"2022.3.1f1"⟩)).toList = true)
    ∧ ((fun (_ : String) => false) (macEditorCandidate "2022.3.1f1") = false
      → macResolveEditorPath (fun _ => false) ⟨"2022.3.1f1"⟩
          = .error (macEditorNotFoundMsg "2022.3.1f1")) :=
  ⟨editor_not_found_message_policy.1 (fun _ => false)
      ⟨some "C:\\Program Files", none, some "C:\\Users\\me\\AppData\\Local"⟩ ⟨"2022.3.1f1"⟩,
   editor_not_found_message_policy.2 (fun _ => false) ⟨"2022.3.1f1"⟩⟩

/-- A `ps` line whose command section is an auxiliary Unity process is dropped
by the macOS per-line parser. -/
theorem parseMacPsLine_aux_none (res : String → String) (line : String)
    (h : isUnityAuxiliaryProcess (macLineCommand line) = true) :
    parseMacPsLine res line = none := by
  unfold parseMacPsLine
  rw [h]
  simp

/-- C7 counterexample: the Windows process listing applies no
auxiliary-process filter. A `Unity.exe` process row whose command line marks it
as a batch-mode asset-import worker is returned by
`WinUnityProcessReader.findByProjectPath` for its project path. -/
theorem win_reader_includes_auxiliary_counterexample :
    isUnityAuxiliaryProcess "C:/U/Unity.exe -batchmode -AssetImportWorker0 -projectPath C:/Proj"
        = true
      ∧ winFindByProjectPath
          { res := fun s => s,
            cmdResult := .ok (some (.arr [.obj
              [("ProcessId", .num 101),
               ("CommandLine", .str "C:/U/Unity.exe -batchmode -AssetImportWorker0 -projectPath C:/Proj")]])) }
          "C:/Proj"
        = .ok (some ⟨101, "C:/Proj"⟩) := by
  constructor
  · rfl
  · rfl

/-- C7 (amended): the macOS listing excludes auxiliary/worker Unity processes
— every process it returns comes from a `ps` line whose command section is not
auxiliary — while the Windows listing applies no such filter (see the
counterexample). -/
theorem mac_reader_excludes_auxiliary (res : String → String) (stdout : String)
    (p : UnityProcess) (hp : p ∈ macListUnityProcesses res stdout) :
    ∃ line, line ∈ macPsLines stdout ∧ parseMacPsLine res line = some p
      ∧ isUnityAuxiliaryProcess (macLineCommand line) = false := by
  unfold macListUnityProcesses at hp
  rw [List.mem_filterMap] at hp
  obtain ⟨line, hline, hparse⟩ := hp
  refine ⟨line, hline, hparse, ?_⟩
  cases haux : isUnityAuxiliaryProcess (macLineCommand line) with
  | false => rfl
  | true =>
      rw [parseMacPsLine_aux_none res line haux] at hparse
      cases hparse

/-- C7 amended witness: a concrete interactive Unity process found in a
concrete `ps` output comes from a non-auxiliary line. -/
theorem mac_reader_excludes_auxiliary_witness :
    ∃ line,
      line ∈ macPsLines "123 /Applications/Unity.app/Contents/MacOS/Unity -projectPath /p"
      ∧ parseMacPsLine (fun s => s) line = some ⟨123, "/p"⟩
      ∧ isUnityAuxiliaryProcess (macLineCommand line) = false :=
  mac_reader_excludes_auxiliary (fun s => s)
    "123 /Applications/Unity.app/Contents/MacOS/Unity -projectPath /p" ⟨123, "/p"⟩
    (by
      have h : macListUnityProcesses (fun s => s)
          "123 /Applications/Unity.app/Contents/MacOS/Unity -projectPath /p"
          = [⟨123, "/p"⟩] := rfl
      rw [h]
      exact List.mem_cons_self _ _)

/-- The spec's tokenizer example input: `-foo "bar baz" 'qux'`. -/
def cliArgsSampleInput : String :=
  "-foo \"bar baz\" " ++ String.mk [squote] ++ "qux" ++ String.mk [squote]

/-- C9: the extra-CLI-argument tokenizer is quoted-argument aware — on
`-foo "bar baz" 'qux'` it yields exactly `["-foo", "bar baz", "qux"]` (quoted
groups become single tokens with the quotes stripped) — and `readCliArgs`
returns the empty list when the settings read fails or its content does not
parse. -/
theorem read_cli_args_tokenization :
    (readCliArgs
        { content := .ok cliArgsSampleInput,
          parsed := some (.obj [("/p", .obj [("cliArgs", .str cliArgsSampleInput)])]) }
        "/p"
      = ["-foo", "bar baz", "qux"])
    ∧ (∀ (env : ReadCliArgsEnv) (path : String),
        env.content = .error () → readCliArgs env path = [])
    ∧ (∀ (env : ReadCliArgsEnv) (path : String),
        env.parsed = none → readCliArgs env path = []) := by
  refine ⟨rfl, ?_, ?_⟩
  · intro env path h
    obtain ⟨c, parsed⟩ := env
    cases h
    rfl
  · intro env path h
    obtain ⟨c, parsed⟩ := env
    cases h
    cases c with
    | error e => rfl
    | ok s => rfl

/-- C9 witness: the failure branches of `read_cli_args_tokenization` at
concrete environments. -/
theorem read_cli_args_tokenization_witness :
    (({ content := .error (), parsed := none } : ReadCliArgsEnv).content = .error ()
      → readCliArgs { content := .error (), parsed := none } "/p" = [])
    ∧ (({ content := .ok "not json", parsed := none } : ReadCliArgsEnv).parsed = none
      → readCliArgs { content := .ok "not json", parsed := none } "/p" = []) :=
  ⟨read_cli_args_tokenization.2.1 { content := .error (), parsed := none } "/p",
   read_cli_args_tokenization.2.2 { content := .ok "not json", parsed := none } "/p"⟩

/-- C10: on Windows, when the process-listing command succeeds but its output
yields no parseable JSON rows with a numeric `ProcessId`, the reader returns
the empty process list — and `findByProjectPath` finds nothing for every
project path — rather than a `ProcessQueryFailed` error; the reader errors
exactly when the command invocation itself fails. -/
theorem win_reader_error_policy :
    (∀ (env : WinReaderEnv) (parsed : Option Json),
        env.cmdResult = .ok parsed → parsePowershellJson parsed = []
        → winListUnityProcesses env = .ok []
          ∧ ∀ path, winFindByProjectPath env path = .ok none)
    ∧ (∀ (env : WinReaderEnv) (e : String),
        env.cmdResult = .error e
        → winListUnityProcesses env
            = .error ("Failed to retrieve Unity process list: " ++ e))
    ∧ (∀ env : WinReaderEnv,
        (∃ msg, winListUnityProcesses env = .error msg)
        → ∃ e, env.cmdResult = .error e) := by
  refine ⟨?_, ?_, ?_⟩
  · intro env parsed hcmd hrows
    obtain ⟨res, cmd⟩ := env
    cases hcmd
    have hlist : winListUnityProcesses ⟨res, .ok parsed⟩ = .ok [] := by
      show Except.ok ((parsePowershellJson parsed).filterMap _) = .ok []
      rw [hrows]
      rfl
    refine ⟨hlist, ?_⟩
    intro path
    unfold winFindByProjectPath
    rw [hlist]
    rfl
  · intro env e hcmd
    obtain ⟨res, cmd⟩ := env
    cases hcmd
    rfl
  · intro env herr
    obtain ⟨res, cmd⟩ := env
    cases cmd with
    | ok parsed =>
        obtain ⟨msg, hmsg⟩ := herr
        exact Except.noConfusion hmsg
    | error e => exact ⟨e, rfl⟩

/-- C10 witness: a PowerShell run whose stdout fails `JSON.parse` yields the
empty listing and no find results; a failed invocation yields the wrapped
error. -/
theorem win_reader_error_policy_witness :
    ((({ res := fun s => s, cmdResult := .ok none } : WinReaderEnv).cmdResult = .ok none
      → parsePowershellJson none = []
      → winListUnityProcesses { res := fun s => s, cmdResult := .ok none } = .ok []
        ∧ ∀ path,
            winFindByProjectPath { res := fun s => s, cmdResult := .ok none } path = .ok none)
    ∧ (({ res := fun s => s, cmdResult := .error "boom" } : WinReaderEnv).cmdResult
          = .error "boom"
      → winListUnityProcesses { res := fun s => s, cmdResult := .error "boom" }
          = .error ("Failed to retrieve Unity process list: " ++ "boom"))) :=
  ⟨win_reader_error_policy.1 { res := fun s => s, cmdResult := .ok none } none,
   win_reader_error_policy.2.1 { res := fun s => s, cmdResult := .error "boom" } "boom"⟩

end UnityHubCli
